import Mathlib

/-!
# Verification of the Adaptive Retrieval & Feedback-Weighted Ranking Engine

Shallow embedding of `backend/enhanced_rag_helper.py` (class `EnhancedRAGHelper`)
and the feedback endpoint of `backend/app.py`, together with proofs of the
specification claims about them.

Modelling conventions:
* Python floats are modelled as exact rationals (`ℚ`); every numeric constant of
  the source (0.35, 1.2, ...) appears as the corresponding rational.
* Python dict metadata is modelled as a structure of `Option`-valued fields:
  `none` means the key is absent, and `Option.getD` models `dict.get(k, default)`.
* The ChromaDB vector store is external; the main collection is modelled as a
  list of records keyed by `id`.  `collection.add` with an already-present id is
  modelled as a no-op (ChromaDB skips inserts of existing embedding ids), and
  `collection.query` results (nearest-neighbour candidates) enter the retrieval
  function as an explicit argument.
* `hashlib.md5(...).hexdigest()[:8]` is an external library call; it is modelled
  by an abstract function parameter `md5hex8 : String → String`.  Only its
  determinism (same text, same digest) is ever used.
* `datetime.now().isoformat()` / `.timestamp()` are modelled by an explicit
  `now : String` argument.
* Python's stable `list.sort` (and `Counter.most_common`, which uses the same
  stable sort) is modelled by `List.insertionSort`, which is a stable sort with
  respect to the same total preorder and therefore produces the same output.
-/

/-- ASCII lowering of a string, modelling Python's `str.lower()`. -/
def lowerStr (s : String) : String :=
  ⟨s.data.map Char.toLower⟩

/-- `matchesAt needle hay` holds when `needle` is an initial segment of `hay`. -/
def matchesAt : List Char → List Char → Bool
  | [], _ => true
  | _ :: _, [] => false
  | a :: as, b :: bs => a = b && matchesAt as bs

/-- `containsSeq needle hay` models Python's substring test `needle in hay`. -/
def containsSeq (needle : List Char) : List Char → Bool
  | [] => matchesAt needle []
  | c :: rest => matchesAt needle (c :: rest) || containsSeq needle rest

/-- Substring test on strings: Python's `kw in story`. -/
def strContains (hay kw : String) : Bool :=
  containsSeq kw.data hay.data

/-- Split a character list at commas, modelling Python's `str.split(',')`
(on a non-empty string; the empty-string case is handled at the call site,
as in the source). -/
def splitCommaAux : List Char → List Char → List (List Char)
  | [], acc => [acc.reverse]
  | c :: rest, acc =>
    if c = ',' then acc.reverse :: splitCommaAux rest [] else splitCommaAux rest (c :: acc)

/-- `splitComma s` is the list of comma-separated fields of `s`. -/
def splitComma (s : String) : List String :=
  (splitCommaAux s.data []).map (fun l => ⟨l⟩)

/-- A word character of the tokenizer: Python's `\w` on the (lowercased) input,
restricted to ASCII. -/
def isWordChar (c : Char) : Bool :=
  c.isAlphanum || c = '_'

/-- Maximal runs of word characters, modelling `re.findall(r'\b\w+\b', text)`. -/
def tokenizeAux : List Char → List Char → List (List Char)
  | [], cur => if cur.isEmpty then [] else [cur.reverse]
  | c :: rest, cur =>
    if isWordChar c then tokenizeAux rest (c :: cur)
    else if cur.isEmpty then tokenizeAux rest [] else cur.reverse :: tokenizeAux rest []

/-- Word tokens of a string. -/
def tokenize (s : String) : List String :=
  (tokenizeAux s.data []).map (fun l => ⟨l⟩)

/-- One test-case object.  The source passes test cases around as dicts with
these keys; `context_relevance` is absent (`none`) until retrieval tags the
case with the relevance score of the record it came from. -/
structure TestCase where
  id : Option String := none
  title : String := ""
  preconditions : String := ""
  steps : String := ""
  expected : String := ""
  priority : String := ""
  context_relevance : Option ℚ := none
deriving DecidableEq, Repr, Inhabited

/-- The metadata dict stored with a record of the main collection.  Each field
models one possible key; `none` means the key is absent from the dict. -/
structure Metadata where
  testCases : List TestCase := []
  domain : Option String := none
  keywords : Option String := none
  num_testcases : Option ℕ := none
  ingestion_date : Option String := none
  creation_date : Option String := none
  feedback_score : Option ℚ := none
  feedback_count : Option ℕ := none
  source : Option String := none
  story_length : Option ℕ := none
  complexity_score : Option ℚ := none
  last_feedback : Option String := none
  original_story_id : Option String := none
  improvement_date : Option String := none
  story_id : Option String := none
deriving DecidableEq, Repr

/-- One record of the main ChromaDB collection (id, document, metadata).
The embedding vector is owned by the external vector index and plays no role
in the embedded logic, so it is not carried here. -/
structure StoredRecord where
  id : String
  document : String
  metadata : Metadata
deriving DecidableEq, Repr

/-- The main collection. -/
abbrev Store := List StoredRecord

/-- `collection.add`: appends a record unless its id is already present
(ChromaDB skips inserts of an existing embedding id). -/
def collectionAdd (store : Store) (r : StoredRecord) : Store :=
  if store.any (fun x => x.id = r.id) then store else store ++ [r]

/-- Whether some record of the store carries the given id. -/
def hasId (store : Store) (i : String) : Bool :=
  store.any (fun x => x.id = i)

/-- The domain keyword table of `_extract_domain`, in source order. -/
def domainKeywords : List (String × List String) :=
  [("ecommerce", ["cart", "product", "checkout", "order", "purchase", "shop", "inventory"]),
   ("authentication", ["login", "password", "user", "account", "register", "auth"]),
   ("finance", ["payment", "transaction", "billing", "invoice", "money", "credit"]),
   ("social", ["post", "comment", "like", "share", "follow", "message"]),
   ("search", ["search", "filter", "sort", "query", "results"]),
   ("mobile", ["mobile", "app", "swipe", "touch", "notification"]),
   ("ui_ux", ["click", "button", "form", "page", "navigate", "interface"])]

/-- `_extract_domain`: first domain (in table order) one of whose keywords
occurs in the lowercased story; `"general"` if none matches. -/
def extractDomain (story : String) : String :=
  let story_lower := lowerStr story
  match domainKeywords.find? (fun p => p.2.any (fun kw => strContains story_lower kw)) with
  | some p => p.1
  | none => "general"

/-- The stop-word set of `_extract_keywords`. -/
def stopWords : List String :=
  ["i", "want", "to", "so", "that", "as", "a", "an", "the", "and", "or", "but"]

/-- Distinct elements in order of first occurrence (the iteration order of a
Python `Counter` built from the list). -/
def firstOccAux : List String → List String → List String
  | [], _ => []
  | w :: ws, seen =>
    if w ∈ seen then firstOccAux ws seen else w :: firstOccAux ws (w :: seen)

/-- `_extract_keywords`: lowercase word tokens, minus stop words and tokens of
length ≤ 2; the 10 most frequent distinct tokens, most frequent first, ties in
first-occurrence order (`Counter.most_common(10)`). -/
def extractKeywords (story : String) : List String :=
  let words := tokenize (lowerStr story)
  let keywords := words.filter (fun w => w ∉ stopWords && w.length > 2)
  let distinct := firstOccAux keywords []
  (distinct.insertionSort (fun a b => keywords.count b ≤ keywords.count a)).take 10

/-- Maximal runs of non-whitespace characters, modelling Python's `str.split()`
with no separator argument (runs of whitespace separate, empties dropped). -/
def wsSplitAux : List Char → List Char → List (List Char)
  | [], cur => if cur.isEmpty then [] else [cur.reverse]
  | c :: rest, cur =>
    if c.isWhitespace then
      if cur.isEmpty then wsSplitAux rest [] else cur.reverse :: wsSplitAux rest []
    else wsSplitAux rest (c :: cur)

/-- `str.split()` on whitespace. -/
def wsSplit (s : String) : List String :=
  (wsSplitAux s.data []).map (fun l => ⟨l⟩)

/-- `_calculate_complexity_score`: word count over 100 plus 0.2 per complexity
indicator present, capped at 1.0. -/
def calculateComplexityScore (story : String) : ℚ :=
  let word_count := (wsSplit story).length
  let indicators : List String := ["integrate", "multiple", "complex", "advanced", "system"]
  let complexity_bonus : ℕ :=
    (indicators.filter (fun ind => strContains (lowerStr story) ind)).length
  min 1 ((word_count : ℚ) / 100 + (complexity_bonus : ℚ) * (2/10))

/-- `_calculate_relevance_score`, translated clause by clause from the source.
`query_story` and `candidate_story` are unused by the computation, exactly as
in the source. -/
def calculateRelevanceScore (query_story candidate_story : String) (metadata : Metadata)
    (distance : ℚ) (query_domain : String) (query_keywords : List String) : ℚ :=
  let semantic_score := max 0 (1 - distance) * (35/100)
  let candidate_domain := metadata.domain.getD "general"
  let domain_score : ℚ := if query_domain = candidate_domain then 25/100 else 5/100
  let candidate_keywords_str := metadata.keywords.getD ""
  let candidate_keywords : List String :=
    if candidate_keywords_str = "" then [] else splitComma candidate_keywords_str
  let keyword_overlap : ℕ :=
    ((query_keywords.dedup).filter (fun k => k ∈ candidate_keywords)).length
  let keyword_score : ℚ := min (15/100) ((keyword_overlap : ℚ) * (3/100))
  let feedback_score := metadata.feedback_score.getD 3
  let feedback_count := metadata.feedback_count.getD 0
  let quality_score : ℚ :=
    if feedback_count ≥ 3 then ((feedback_score - 3) / 2) * (20/100)
    else if feedback_count ≥ 1 then ((feedback_score - 3) / 2) * (15/100)
    else 5/100
  let quality_score :=
    if metadata.source = some "user_improved" then quality_score + 10/100 else quality_score
  let source := metadata.source.getD "sample"
  let recency_score : ℚ :=
    if source = "generated" then 5/100
    else if source = "user_improved" then 3/100
    else 1/100
  let total_score := semantic_score + domain_score + keyword_score + quality_score + recency_score
  let total_score :=
    if feedback_score ≥ 45/10 ∧ feedback_count ≥ 2 then total_score * (11/10)
    else if feedback_score ≤ 2 ∧ feedback_count ≥ 2 then total_score * (8/10)
    else total_score
  min 1 total_score

/-- The relevance composite exactly as the specification claim states it: the
same terms and bonus/penalty multipliers, but with no final cap.  Absent
metadata fields are read with the same defaults the record reads use. -/
def relevanceScoreClaimed (query_story candidate_story : String) (metadata : Metadata)
    (distance : ℚ) (query_domain : String) (query_keywords : List String) : ℚ :=
  let semantic_score := max 0 (1 - distance) * (35/100)
  let candidate_domain := metadata.domain.getD "general"
  let domain_score : ℚ := if query_domain = candidate_domain then 25/100 else 5/100
  let candidate_keywords_str := metadata.keywords.getD ""
  let candidate_keywords : List String :=
    if candidate_keywords_str = "" then [] else splitComma candidate_keywords_str
  let keyword_overlap : ℕ :=
    ((query_keywords.dedup).filter (fun k => k ∈ candidate_keywords)).length
  let keyword_score : ℚ := min (15/100) ((keyword_overlap : ℚ) * (3/100))
  let feedback_score := metadata.feedback_score.getD 3
  let feedback_count := metadata.feedback_count.getD 0
  let quality_score : ℚ :=
    if feedback_count ≥ 3 then ((feedback_score - 3) / 2) * (20/100)
    else if feedback_count ≥ 1 then ((feedback_score - 3) / 2) * (15/100)
    else 5/100
  let quality_score :=
    if metadata.source = some "user_improved" then quality_score + 10/100 else quality_score
  let source := metadata.source.getD "sample"
  let recency_score : ℚ :=
    if source = "generated" then 5/100
    else if source = "user_improved" then 3/100
    else 1/100
  let total_score := semantic_score + domain_score + keyword_score + quality_score + recency_score
  if feedback_score ≥ 45/10 ∧ feedback_count ≥ 2 then total_score * (11/10)
  else if feedback_score ≤ 2 ∧ feedback_count ≥ 2 then total_score * (8/10)
  else total_score

/-- The code's score is the claimed composite capped at 1. -/
lemma calculateRelevanceScore_eq_min_claimed (qs cs : String) (m : Metadata) (d : ℚ)
    (qd : String) (qk : List String) :
    calculateRelevanceScore qs cs m d qd qk = min 1 (relevanceScoreClaimed qs cs m d qd qk) :=
  rfl

/-- The `general` row of the canned edge-case table, which is also the default
row (`base_cases.get(domain, base_cases['general'])`). -/
def generalEdgeCases : List TestCase :=
  [{ id := some "edge_gen_1", title := "Edge: Network interruption handling",
     preconditions := "User performing action",
     steps := "Disconnect network during operation",
     expected := "Graceful error handling, retry mechanism", priority := "High" }]

/-- The canned edge-case table of `_generate_domain_specific_edge_cases`. -/
def edgeCaseTable : List (String × List TestCase) :=
  [("ecommerce",
    [{ id := some "edge_ecom_1", title := "Edge: Out of stock item handling",
       preconditions := "Product inventory is 0",
       steps := "Attempt to add out-of-stock item to cart",
       expected := "Clear out-of-stock message, no cart addition", priority := "High" },
     { id := some "edge_ecom_2", title := "Edge: Cart persistence across sessions",
       preconditions := "User has items in cart",
       steps := "Log out and log back in",
       expected := "Cart items remain preserved", priority := "Medium" }]),
   ("authentication",
    [{ id := some "edge_auth_1", title := "Edge: Multiple failed login attempts",
       preconditions := "User account exists",
       steps := "Enter wrong password 5 times consecutively",
       expected := "Account temporarily locked with clear message", priority := "Critical" }]),
   ("general", generalEdgeCases)]

/-- `_generate_domain_specific_edge_cases`: the table row for the domain, with
the `general` row as default (`base_cases.get(domain, base_cases['general'])`).
The `story` argument is unused, as in the source. -/
def generateDomainSpecificEdgeCases (domain : String) (story : String) : List TestCase :=
  match edgeCaseTable.find? (fun p => p.1 = domain) with
  | some p => p.2
  | none => generalEdgeCases

/-- `_get_fallback_cases`: the fixed list returned when retrieval fails. -/
def getFallbackCases : List TestCase :=
  [{ id := some "fallback_1", title := "Basic functionality validation",
     preconditions := "System is accessible",
     steps := "Perform core user action as described in story",
     expected := "Action completes successfully with expected outcome", priority := "High" }]

/-- `_generate_story_id`: `"story_" + md5(story).hexdigest()[:8]`, with the md5
digest abstracted by the deterministic function `md5hex8`. -/
def generateStoryId (md5hex8 : String → String) (story : String) : String :=
  "story_" ++ md5hex8 story

/-- The record built by `add_generated_story_context` (before the store add).
Note the metadata carries no `story_id` key, and `feedback_score or 0.0`
stores 0.0 when no feedback score is passed. -/
def generatedRecord (md5hex8 : String → String) (now : String) (user_story : String)
    (generated_testcases : List TestCase) (feedback_score : Option ℚ) : StoredRecord :=
  { id := generateStoryId md5hex8 user_story
    document := user_story
    metadata :=
      { testCases := generated_testcases
        domain := some (extractDomain user_story)
        keywords := some (String.intercalate "," (extractKeywords user_story))
        num_testcases := some generated_testcases.length
        creation_date := some now
        feedback_score := some (feedback_score.getD 0)
        source := some "generated"
        story_length := some user_story.length
        complexity_score := some (calculateComplexityScore user_story) } }

/-- `add_generated_story_context`: append the generated record to the main
collection (a no-op when its content-hash id is already present). -/
def addGeneratedStoryContext (md5hex8 : String → String) (now : String) (store : Store)
    (user_story : String) (generated_testcases : List TestCase)
    (feedback_score : Option ℚ) : Store :=
  collectionAdd store (generatedRecord md5hex8 now user_story generated_testcases feedback_score)

/-- The record built for item `i` of the sample file by
`ingest_testcases_from_json` (id `sample_{i}`, source `sample_data`, and no
`feedback_score`, `feedback_count` or `story_id` keys). -/
def sampleRecord (now : String) (i : ℕ) (story : String) (test_cases : List TestCase) :
    StoredRecord :=
  { id := "sample_" ++ toString i
    document := story
    metadata :=
      { testCases := test_cases
        domain := some (extractDomain story)
        keywords := some (String.intercalate "," (extractKeywords story))
        num_testcases := some test_cases.length
        ingestion_date := some now
        source := some "sample_data" } }

/-- The enumerated insertion loop of `ingest_testcases_from_json`. -/
def ingestAux (now : String) : Store → ℕ → List (String × List TestCase) → Store
  | store, _, [] => store
  | store, i, (story, test_cases) :: rest =>
    ingestAux now (collectionAdd store (sampleRecord now i story test_cases)) (i + 1) rest

/-- `ingest_testcases_from_json`: insert every `(userStory, testCases)` item of
the sample file under the positional id `sample_{i}`. -/
def ingestTestcasesFromJson (now : String) (store : Store)
    (examples : List (String × List TestCase)) : Store :=
  ingestAux now store 0 examples

/-- Round to the nearest integer, ties to the even integer (Python's built-in
`round`, which rounds half to even). -/
def roundHalfEven (q : ℚ) : ℤ :=
  let f := ⌊q⌋
  let frac := q - (f : ℚ)
  if frac < 1/2 then f
  else if 1/2 < frac then f + 1
  else if Even f then f else f + 1

/-- Python's `round(x, 2)`: round half to even at two decimal places. -/
def round2 (q : ℚ) : ℚ :=
  (roundHalfEven (q * 100) : ℚ) / 100

/-- `_update_story_quality_score`: every record matched by the metadata filter
`where={"story_id": story_id}` gets the confidence-weighted score
`(current * count + new * 1.2) / (count + 1.2)` rounded to two decimals, an
incremented `feedback_count`, and a `last_feedback` timestamp.  Records whose
metadata carries no `story_id` key (none of the insertion paths writes one)
never match the filter. -/
def updateStoryQualityScore (now : String) (store : Store) (story_id : String)
    (new_score : ℚ) : Store :=
  store.map (fun r =>
    if r.metadata.story_id = some story_id then
      let current_score := r.metadata.feedback_score.getD 3
      let feedback_count : ℕ := r.metadata.feedback_count.getD 0
      let updated_score :=
        (current_score * (feedback_count : ℚ) + new_score * (12/10)) /
          ((feedback_count : ℚ) + 12/10)
      { r with metadata :=
          { r.metadata with
              feedback_score := some (round2 updated_score)
              feedback_count := some (feedback_count + 1)
              last_feedback := some now } }
    else r)

/-- `_calculate_feedback_weight`: base 1.0, +0.3 for feedback text longer than
50 (else +0.1 if longer than 20), +0.2 for extreme scores, capped at 2.0. -/
def calculateFeedbackWeight (quality_score : ℚ) (feedback_text : String) : ℚ :=
  let base_weight : ℚ := 1
  let base_weight :=
    if feedback_text.length > 50 then base_weight + 3/10
    else if feedback_text.length > 20 then base_weight + 1/10
    else base_weight
  let base_weight :=
    if quality_score ≤ 2 ∨ quality_score ≥ 45/10 then base_weight + 2/10 else base_weight
  min 2 base_weight

/-- Result of `_analyze_feedback_sentiment`. -/
structure SentimentResult where
  sentiment : String
  sentiment_score : ℤ := 0
  key_issues : List String := []
  suggestions : List String := []
  feedback_length : ℕ := 0
deriving DecidableEq, Repr

/-- The word-scanning loop of `_analyze_feedback_sentiment`. -/
def sentimentScan : List String → ℤ × List String × List String
  | [] => (0, [], [])
  | w :: ws =>
    let (score, issues, suggs) := sentimentScan ws
    if w ∈ ["good", "great", "excellent", "comprehensive", "thorough", "detailed"] then
      (score + 1, issues, suggs)
    else if w ∈ ["poor", "bad", "incomplete", "missing", "lacking", "insufficient"] then
      (score - 1, w :: issues, suggs)
    else if w ∈ ["should", "could", "need", "add", "include", "consider", "improve"] then
      (score, issues, w :: suggs)
    else (score, issues, suggs)

/-- `_analyze_feedback_sentiment`. -/
def analyzeFeedbackSentiment (feedback_text : String) : SentimentResult :=
  if feedback_text = "" then { sentiment := "neutral" }
  else
    let (score, issues, suggs) := sentimentScan (wsSplit (lowerStr feedback_text))
    { sentiment := if score > 0 then "positive" else if score < 0 then "negative" else "neutral"
      sentiment_score := score
      key_issues := issues
      suggestions := suggs
      feedback_length := feedback_text.length }

/-- `_create_enriched_feedback_text`: the synthesized summary string that is
embedded and stored as the feedback document. -/
def createEnrichedFeedbackText (feedback_text : String) (quality_score : ℚ)
    (categories : List String) (missing_scenarios : List String) : String :=
  let parts := ["Quality: " ++ toString quality_score ++ "/5"]
  let parts := if feedback_text = "" then parts else parts ++ ["Feedback: " ++ feedback_text]
  let parts :=
    if categories = [] then parts
    else parts ++ ["Categories: " ++ String.intercalate ", " categories]
  let parts :=
    if missing_scenarios = [] then parts
    else parts ++ ["Missing: " ++ String.intercalate ", " missing_scenarios]
  String.intercalate " | " parts

/-- One entry of the feedback collection (`feedback_data` plus its id and
document text). -/
structure FeedbackRecord where
  id : String
  document : String
  story_id : String
  quality_score : ℚ
  user_feedback : String
  improved_testcases : List TestCase
  feedback_categories : List String
  missing_scenarios : List String
  feedback_date : String
  sentiment_analysis : SentimentResult
  feedback_weight : ℚ
deriving DecidableEq, Repr

/-- `_add_improved_examples_to_knowledge_base`: look the original story up by
the `story_id` metadata filter; when it matches, add a copy of the first match
with the improved test cases, `source = "user_improved"` and score 5.0.  The
filter matches nothing when no record metadata carries a `story_id` key. -/
def addImprovedExamples (now : String) (store : Store) (original_story_id : String)
    (improved_testcases : List TestCase) : Store :=
  match store.filter (fun r => r.metadata.story_id = some original_story_id) with
  | [] => store
  | r :: _ =>
    let improved_metadata :=
      { r.metadata with
          testCases := improved_testcases
          source := some "user_improved"
          feedback_score := some 5
          original_story_id := some original_story_id
          improvement_date := some now }
    collectionAdd store
      { id := "improved_" ++ original_story_id ++ "_" ++ now
        document := r.document
        metadata := improved_metadata }

/-- `add_feedback`.  The whole body runs inside `try/except`, so no error ever
escapes; `write_fails` models an infrastructure exception raised by the
feedback-collection write, in which case the earlier main-collection update has
already happened and the feedback record (and everything after it) is dropped,
with the exception logged and swallowed.  Returns the new main collection and
feedback collection. -/
def addFeedback (write_fails : Bool) (now : String) (store : Store)
    (fstore : List FeedbackRecord) (story_id : String) (testcase_quality_score : ℚ)
    (user_feedback : String) (improved_testcases : List TestCase)
    (feedback_categories : List String) (missing_scenarios : List String) :
    Store × List FeedbackRecord :=
  let store1 := updateStoryQualityScore now store story_id testcase_quality_score
  if write_fails then (store1, fstore)
  else
    let feedback_text :=
      createEnrichedFeedbackText user_feedback testcase_quality_score feedback_categories
        missing_scenarios
    let record : FeedbackRecord :=
      { id := "feedback_" ++ story_id ++ "_" ++ now
        document := feedback_text
        story_id := story_id
        quality_score := testcase_quality_score
        user_feedback := user_feedback
        improved_testcases := improved_testcases
        feedback_categories := feedback_categories
        missing_scenarios := missing_scenarios
        feedback_date := now
        sentiment_analysis := analyzeFeedbackSentiment user_feedback
        feedback_weight := calculateFeedbackWeight testcase_quality_score user_feedback }
    let fstore1 := fstore ++ [record]
    let store2 :=
      if improved_testcases ≠ [] ∧ testcase_quality_score ≥ 4 then
        addImprovedExamples now store1 story_id improved_testcases
      else store1
    (store2, fstore1)

/-- Responses of the `/api/v1/feedback` route. -/
inductive FeedbackHttpResponse where
  | badRequest (error : String)
  | okSubmitted (story_id : String) (quality_score : ℚ)
deriving DecidableEq, Repr

/-- `submit_feedback` (`app.py`): reject a missing or falsy `story_id` or a
missing `quality_score` with a 400, reject a `quality_score` outside `[1, 5]`
with a 400, and otherwise delegate to `add_feedback` and answer 200. -/
def submitFeedback (write_fails : Bool) (now : String) (store : Store)
    (fstore : List FeedbackRecord) (story_id : Option String) (quality_score : Option ℚ)
    (user_feedback : String) (improved_testcases : List TestCase)
    (feedback_categories : List String) (missing_scenarios : List String) :
    FeedbackHttpResponse × Store × List FeedbackRecord :=
  match story_id, quality_score with
  | none, _ => (.badRequest "Missing story_id or quality_score", store, fstore)
  | some _, none => (.badRequest "Missing story_id or quality_score", store, fstore)
  | some sid, some q =>
    if sid = "" then (.badRequest "Missing story_id or quality_score", store, fstore)
    else if ¬(1 ≤ q ∧ q ≤ 5) then
      (.badRequest "Quality score must be between 1 and 5", store, fstore)
    else
      let (store1, fstore1) :=
        addFeedback write_fails now store fstore sid q user_feedback improved_testcases
          feedback_categories missing_scenarios
      (.okSubmitted sid q, store1, fstore1)

/-- One nearest-neighbour candidate as returned by the store query: the zipped
`(metadata, distance, document)` triple of `retrieve_similar_with_context`. -/
structure Candidate where
  metadata : Metadata
  distance : ℚ
  document : String
deriving DecidableEq, Repr

/-- The inner loop over one candidate's test cases: skip cases whose id was
already seen, otherwise tag the case with the candidate's relevance score and
record its id as seen.  Returns the cases added and the updated seen set. -/
def addCasesFrom (score : ℚ) : List TestCase → List (Option String) →
    List TestCase × List (Option String)
  | [], seen => ([], seen)
  | tc :: rest, seen =>
    if tc.id ∈ seen then addCasesFrom score rest seen
    else
      let (added, seen1) := addCasesFrom score rest (tc.id :: seen)
      ({ tc with context_relevance := some score } :: added, seen1)

/-- The outer loop of `retrieve_similar_with_context` over the top scored
results, threading the shared `seen_ids` set. -/
def extractTopCases : List (Candidate × ℚ) → List (Option String) → List TestCase
  | [], _ => []
  | (c, score) :: rest, seen =>
    let (added, seen1) := addCasesFrom score c.metadata.testCases seen
    added ++ extractTopCases rest seen1

/-- The scored candidate list of `retrieve_similar_with_context`: every
candidate paired with its relevance score against the query story. -/
def scoredCandidates (user_story : String) (candidates : List Candidate) :
    List (Candidate × ℚ) :=
  let story_domain := extractDomain user_story
  let story_keywords := extractKeywords user_story
  candidates.map (fun c =>
    (c, calculateRelevanceScore user_story c.document c.metadata c.distance story_domain
          story_keywords))

/-- The record-drawn segment of the result: the deduplicated test cases of the
`top_k` best-scoring candidates (stable sort, descending relevance score),
each tagged with the score of the candidate it was drawn from. -/
def extractedCases (user_story : String) (top_k : ℕ) (candidates : List Candidate) :
    List TestCase :=
  extractTopCases
    (((scoredCandidates user_story candidates).insertionSort (fun a b => b.2 ≤ a.2)).take top_k)
    []

/-- The body of `retrieve_similar_with_context` after a successful store query:
score all candidates, sort by relevance score descending (stable), extract and
deduplicate the test cases of the `top_k` best candidates, top up with
domain-specific edge cases, and return at most `top_k` cases. -/
def retrieveSimilarCore (user_story : String) (top_k : ℕ) (candidates : List Candidate) :
    List TestCase :=
  let combined_test_cases := extractedCases user_story top_k candidates
  let combined_test_cases :=
    if combined_test_cases.length < top_k then
      combined_test_cases ++
        (generateDomainSpecificEdgeCases (extractDomain user_story) user_story).take
          (top_k - combined_test_cases.length)
    else combined_test_cases
  combined_test_cases.take top_k

/-- `retrieve_similar_with_context`.  The embedding computation and the store
query are external calls that may fail; `queryStore` models them, called with
`n_results = min(top_k * 3, 20)`.  The surrounding `try/except` turns any
failure into the fixed fallback list. -/
def retrieveSimilarWithContext (user_story : String) (top_k : ℕ)
    (queryStore : ℕ → Except String (List Candidate)) : List TestCase :=
  match queryStore (min (top_k * 3) 20) with
  | .error _ => getFallbackCases
  | .ok candidates => retrieveSimilarCore user_story top_k candidates

lemma mem_of_mem_firstOccAux {x : String} :
    ∀ {l seen : List String}, x ∈ firstOccAux l seen → x ∈ l := by
  intro l
  induction l with
  | nil => intro seen h; simp [firstOccAux] at h
  | cons w ws ih =>
    intro seen h
    simp only [firstOccAux] at h
    by_cases hw : w ∈ seen
    · simp only [if_pos hw] at h
      exact List.mem_cons_of_mem _ (ih h)
    · simp only [if_neg hw, List.mem_cons] at h
      rcases h with h | h
      · exact h ▸ List.mem_cons_self _ _
      · exact List.mem_cons_of_mem _ (ih h)

/-- C10: every keyword returned by `_extract_keywords` has at least 3
characters; one- and two-character tokens are filtered out together with the
stop words, so they can never appear among a record's keywords. -/
theorem extractKeywords_length_ge_three (s kw : String) (h : kw ∈ extractKeywords s) :
    3 ≤ kw.length := by
  unfold extractKeywords at h
  have h1 := List.take_subset _ _ h
  have h2 := (List.perm_insertionSort _ _).mem_iff.mp h1
  have h3 := mem_of_mem_firstOccAux h2
  have h4 := (List.mem_filter.mp h3).2
  simp only [Bool.and_eq_true, decide_eq_true_eq] at h4
  omega

/-- C10 witness: the concrete keyword "user" is extracted and is at least 3
characters long. -/
theorem extractKeywords_length_ge_three_witness : 3 ≤ "user".length :=
  extractKeywords_length_ge_three "user login" "user" (by decide)

/-- C7: `_extract_domain` classifies every text containing "checkout" and
"cart" as `ecommerce` (the commerce domain); first-match-wins over the table
order, so a text containing "cart" together with the authentication keyword
"login" is still `ecommerce`; a text containing none of the keyword-table
terms is `general`. -/
theorem extractDomain_spec (s : String) :
    (strContains (lowerStr s) "checkout" = true ∧ strContains (lowerStr s) "cart" = true →
      extractDomain s = "ecommerce") ∧
    (strContains (lowerStr s) "cart" = true ∧ strContains (lowerStr s) "login" = true →
      extractDomain s = "ecommerce") ∧
    ((∀ p ∈ domainKeywords, ∀ kw ∈ p.2, strContains (lowerStr s) kw = false) →
      extractDomain s = "general") := by
  have ecom : ∀ s : String, strContains (lowerStr s) "cart" = true →
      extractDomain s = "ecommerce" := by
    intro s hcart
    have hfind :
        domainKeywords.find? (fun p => p.2.any fun kw => strContains (lowerStr s) kw) =
          some ("ecommerce",
            ["cart", "product", "checkout", "order", "purchase", "shop", "inventory"]) := by
      unfold domainKeywords
      rw [List.find?_cons_of_pos]
      simp [hcart]
    simp [extractDomain, hfind]
  refine ⟨fun h => ecom s h.2, fun h => ecom s h.1, ?_⟩
  intro h
  have hfind :
      domainKeywords.find? (fun p => p.2.any fun kw => strContains (lowerStr s) kw) = none := by
    rw [List.find?_eq_none]
    intro p hp
    simp only [Bool.not_eq_true, List.any_eq_false]
    intro kw hkw
    simp [h p hp kw hkw]
  simp [extractDomain, hfind]

/-- C7 witness: concrete texts for each clause of the theorem. -/
theorem extractDomain_spec_witness :
    extractDomain "checkout my cart" = "ecommerce" ∧
    extractDomain "cart then login" = "ecommerce" ∧
    extractDomain "zzz" = "general" :=
  ⟨(extractDomain_spec "checkout my cart").1 (by decide),
   (extractDomain_spec "cart then login").2.1 (by decide),
   (extractDomain_spec "zzz").2.2 (by decide)⟩

/-- A stored record's metadata with a consistently high feedback record:
score 5.0 over 3 feedback events, user-improved provenance. -/
def highRatedMeta : Metadata :=
  { domain := some "authentication"
    keywords := some ""
    feedback_score := some 5
    feedback_count := some 3
    source := some "user_improved" }

/-- C2 counterexample: for a perfectly matching user-improved candidate the
composite described by the claim evaluates to 1.023, but
`_calculate_relevance_score` returns 1 — the claim omits the final cap, so the
function does not return the composite. -/
theorem calculateRelevanceScore_ne_claimed :
    calculateRelevanceScore "q" "c" highRatedMeta 0 "authentication" [] ≠
      relevanceScoreClaimed "q" "c" highRatedMeta 0 "authentication" [] := by
  have h1 : calculateRelevanceScore "q" "c" highRatedMeta 0 "authentication" [] = 1 := by
    unfold calculateRelevanceScore highRatedMeta
    simp only [Option.getD_some]
    simp
    norm_num [min_def, max_def]
  have h2 : relevanceScoreClaimed "q" "c" highRatedMeta 0 "authentication" [] = 1023/1000 := by
    unfold relevanceScoreClaimed highRatedMeta
    simp only [Option.getD_some]
    simp
    norm_num [min_def, max_def]
  rw [h1, h2]
  norm_num

/-- C2 (amended): `_calculate_relevance_score` returns the composite described
by the claim capped at 1.0. -/
theorem calculateRelevanceScore_eq_capped_composite (qs cs : String) (m : Metadata) (d : ℚ)
    (qd : String) (qk : List String) :
    calculateRelevanceScore qs cs m d qd qk = min 1 (relevanceScoreClaimed qs cs m d qd qk) :=
  calculateRelevanceScore_eq_min_claimed qs cs m d qd qk

/-- A stored record's metadata with a consistently low feedback record:
score 1.0 over 3 feedback events. -/
def lowRatedMeta : Metadata :=
  { domain := some "x"
    keywords := some ""
    feedback_score := some 1
    feedback_count := some 3 }

/-- C3 counterexample: a valid candidate (quality score 1.0 in [1,5], three
feedback events, distance 1 in [0,2]) gets relevance score −0.112: the final
score is not clamped below, so it does not lie in [0,1]. -/
theorem calculateRelevanceScore_neg :
    calculateRelevanceScore "q" "c" lowRatedMeta 1 "y" [] < 0 := by
  unfold calculateRelevanceScore lowRatedMeta
  simp only [Option.getD_some]
  simp
  norm_num [min_def, max_def]

/-- C3 (amended): the final relevance score is always at most 1, but it is not
clamped below and can be negative. -/
theorem calculateRelevanceScore_le_one (qs cs : String) (m : Metadata) (d : ℚ)
    (qd : String) (qk : List String) :
    calculateRelevanceScore qs cs m d qd qk ≤ 1 := by
  rw [calculateRelevanceScore_eq_min_claimed]
  exact min_le_left _ _

/-- C6: whenever the embedding computation or store query fails, retrieval
returns the fixed fallback list instead of propagating the error. -/
theorem retrieveSimilarWithContext_fallback_on_error (user_story : String) (top_k : ℕ)
    (queryStore : ℕ → Except String (List Candidate)) (msg : String)
    (h : queryStore (min (top_k * 3) 20) = .error msg) :
    retrieveSimilarWithContext user_story top_k queryStore = getFallbackCases := by
  unfold retrieveSimilarWithContext
  rw [h]

/-- C6 witness: a concrete failing store query degrades to the fallback list. -/
theorem retrieveSimilarWithContext_fallback_on_error_witness :
    retrieveSimilarWithContext "user can log in" 5 (fun _ => .error "store unavailable") =
      getFallbackCases :=
  retrieveSimilarWithContext_fallback_on_error "user can log in" 5
    (fun _ => .error "store unavailable") "store unavailable" rfl

lemma addCasesFrom_mem_drawn {score : ℚ} :
    ∀ {cases : List TestCase} {seen : List (Option String)} {tc : TestCase},
      tc ∈ (addCasesFrom score cases seen).1 →
      ∃ tc0 ∈ cases, tc = { tc0 with context_relevance := some score } := by
  intro cases
  induction cases with
  | nil => intro seen tc h; simp [addCasesFrom] at h
  | cons tc0 rest ih =>
    intro seen tc h
    simp only [addCasesFrom] at h
    by_cases hs : tc0.id ∈ seen
    · rw [if_pos hs] at h
      obtain ⟨tc1, h1, h2⟩ := ih h
      exact ⟨tc1, List.mem_cons_of_mem _ h1, h2⟩
    · rw [if_neg hs] at h
      simp only [List.mem_cons] at h
      rcases h with h | h
      · exact ⟨tc0, List.mem_cons_self _ _, h⟩
      · obtain ⟨tc1, h1, h2⟩ := ih h
        exact ⟨tc1, List.mem_cons_of_mem _ h1, h2⟩

lemma extractTopCases_mem_drawn :
    ∀ {scored : List (Candidate × ℚ)} {seen : List (Option String)} {tc : TestCase},
      tc ∈ extractTopCases scored seen →
      ∃ p ∈ scored, ∃ tc0 ∈ p.1.metadata.testCases,
        tc = { tc0 with context_relevance := some p.2 } := by
  intro scored
  induction scored with
  | nil => intro seen tc h; simp [extractTopCases] at h
  | cons p rest ih =>
    intro seen tc h
    obtain ⟨c, score⟩ := p
    simp only [extractTopCases, List.mem_append] at h
    rcases h with h | h
    · obtain ⟨tc0, h0, heq⟩ := addCasesFrom_mem_drawn h
      exact ⟨(c, score), List.mem_cons_self _ _, tc0, h0, heq⟩
    · obtain ⟨q, hq, tc0, h0, heq⟩ := ih h
      exact ⟨q, List.mem_cons_of_mem _ hq, tc0, h0, heq⟩

lemma mem_edgeCases_untagged {d s : String} {tc : TestCase}
    (h : tc ∈ generateDomainSpecificEdgeCases d s) : tc.context_relevance = none := by
  have htable : ∀ p ∈ edgeCaseTable, ∀ tc2 ∈ p.2, tc2.context_relevance = none := by decide
  unfold generateDomainSpecificEdgeCases at h
  rcases hfind : edgeCaseTable.find? (fun p => p.1 = d) with - | p
  · rw [hfind] at h
    revert h
    have : ∀ tc2 ∈ generalEdgeCases, tc2.context_relevance = none := by decide
    exact this tc
  · rw [hfind] at h
    exact htable p (List.mem_of_find?_eq_some hfind) tc h

lemma extractedCases_mem (user_story : String) (top_k : ℕ) (candidates : List Candidate)
    {tc : TestCase} (htc : tc ∈ extractedCases user_story top_k candidates) :
    ∃ c ∈ candidates, ∃ tc0 ∈ c.metadata.testCases,
      tc = { tc0 with
               context_relevance := some (calculateRelevanceScore user_story c.document
                 c.metadata c.distance (extractDomain user_story)
                 (extractKeywords user_story)) } := by
  unfold extractedCases at htc
  obtain ⟨p, hp, tc0, h0, heq⟩ := extractTopCases_mem_drawn htc
  have hp1 := List.take_subset _ _ hp
  have hp2 := (List.perm_insertionSort _ _).mem_iff.mp hp1
  unfold scoredCandidates at hp2
  obtain ⟨c, hc, hpc⟩ := List.mem_map.mp hp2
  refine ⟨c, hc, tc0, ?_, ?_⟩
  · rw [← hpc] at h0
    exact h0
  · rw [← hpc] at heq
    exact heq

/-- C4 (amended): the successful-query path of `retrieve_similar_with_context`
returns at most `top_k` test cases; the result is exactly the record-drawn
segment followed by fill edge cases, truncated to `top_k`, where every
record-drawn case is one of a stored candidate's test cases tagged (in
`context_relevance`) with that candidate's relevance score, and every fill
edge case carries no tag. -/
theorem retrieveSimilarCore_topk_and_tags (user_story : String) (top_k : ℕ)
    (candidates : List Candidate) :
    (retrieveSimilarCore user_story top_k candidates).length ≤ top_k ∧
    retrieveSimilarCore user_story top_k candidates =
      (extractedCases user_story top_k candidates ++
        (generateDomainSpecificEdgeCases (extractDomain user_story) user_story).take
          (top_k - (extractedCases user_story top_k candidates).length)).take top_k ∧
    (∀ tc ∈ extractedCases user_story top_k candidates,
      ∃ c ∈ candidates, ∃ tc0 ∈ c.metadata.testCases,
        tc = { tc0 with
                 context_relevance := some (calculateRelevanceScore user_story c.document
                   c.metadata c.distance (extractDomain user_story)
                   (extractKeywords user_story)) }) ∧
    (∀ tc ∈ generateDomainSpecificEdgeCases (extractDomain user_story) user_story,
      tc.context_relevance = none) := by
  refine ⟨?_, ?_, fun tc htc => extractedCases_mem user_story top_k candidates htc,
    fun tc htc => mem_edgeCases_untagged htc⟩
  · unfold retrieveSimilarCore
    rw [List.length_take]
    exact inf_le_left
  · unfold retrieveSimilarCore
    dsimp only
    by_cases hlen : (extractedCases user_story top_k candidates).length < top_k
    · rw [if_pos hlen]
    · rw [if_neg hlen]
      rw [Nat.sub_eq_zero_of_le (Nat.le_of_not_lt hlen), List.take_zero, List.append_nil]

/-- A concrete candidate: a stored authentication record holding one test
case. -/
def loginCandidate : Candidate :=
  { metadata :=
      { testCases := [{ id := some "TC_X", title := "Valid login" }]
        domain := some "authentication"
        source := some "generated" }
    distance := 0
    document := "user can login" }

/-- The first (and only) test case drawn from `loginCandidate` by a retrieval
for "user login": the stored case tagged with the candidate's relevance
score. -/
def taggedLoginCase : TestCase :=
  { id := some "TC_X"
    title := "Valid login"
    context_relevance :=
      some (calculateRelevanceScore "user login" loginCandidate.document
        loginCandidate.metadata loginCandidate.distance (extractDomain "user login")
        (extractKeywords "user login")) }

/-- C4 witness: against the single stored candidate `loginCandidate`, the
result length is at most 1, the drawn case `taggedLoginCase` is one of the
candidate's test cases tagged with that candidate's score, and the
(authentication) fill edge case carries no tag. -/
theorem retrieveSimilarCore_topk_and_tags_witness :
    (retrieveSimilarCore "user login" 1 [loginCandidate]).length ≤ 1 ∧
    (∃ c ∈ [loginCandidate], ∃ tc0 ∈ c.metadata.testCases,
      taggedLoginCase = { tc0 with
                            context_relevance := some (calculateRelevanceScore "user login"
                              c.document c.metadata c.distance (extractDomain "user login")
                              (extractKeywords "user login")) }) ∧
    (generateDomainSpecificEdgeCases (extractDomain "user login")
        "user login").headI.context_relevance = none :=
  ⟨(retrieveSimilarCore_topk_and_tags "user login" 1 [loginCandidate]).1,
   (retrieveSimilarCore_topk_and_tags "user login" 1 [loginCandidate]).2.2.1 taggedLoginCase
     (show taggedLoginCase ∈ [taggedLoginCase] from List.mem_singleton.mpr rfl),
   (retrieveSimilarCore_topk_and_tags "user login" 1 [loginCandidate]).2.2.2
     (generateDomainSpecificEdgeCases (extractDomain "user login") "user login").headI
     (by decide)⟩

/-- C4 counterexample: against an empty candidate set, the single returned
(fallback edge) test case carries no relevance tag, so it is not the case that
every returned test case is tagged with the score of a stored record. -/
theorem retrieveSimilarCore_returns_untagged_case :
    (retrieveSimilarCore "hello" 1 []).map (fun tc => tc.context_relevance) = [none] := by
  decide

/-- A concrete stand-in for the md5 digest parameter, used only to instantiate
closed statements; every parameterized theorem holds for the real digest
function as well. -/
def digestModel : String → String := fun s => s

lemma updateStoryQualityScore_noop {store : Store} (now story_id : String) (new_score : ℚ)
    (h : ∀ r ∈ store, r.metadata.story_id = none) :
    updateStoryQualityScore now store story_id new_score = store := by
  unfold updateStoryQualityScore
  induction store with
  | nil => rfl
  | cons r rest ih =>
    simp only [List.map_cons]
    rw [if_neg (by rw [h r (List.mem_cons_self _ _)]; simp),
      ih (fun x hx => h x (List.mem_cons_of_mem _ hx))]

lemma collectionAdd_of_hasId {store : Store} {r : StoredRecord}
    (h : hasId store r.id = true) : collectionAdd store r = store := by
  unfold collectionAdd
  unfold hasId at h
  rw [if_pos h]

lemma hasId_collectionAdd {store : Store} {r : StoredRecord} {x : String}
    (h : hasId store x = true) : hasId (collectionAdd store r) x = true := by
  unfold collectionAdd
  split
  · exact h
  · unfold hasId at h ⊢
    rw [List.any_append, h, Bool.true_or]

lemma hasId_collectionAdd_self (store : Store) (r : StoredRecord) :
    hasId (collectionAdd store r) r.id = true := by
  unfold collectionAdd
  split
  · assumption
  · unfold hasId
    rw [List.any_append]
    simp

/-- The store produced by inserting the generated record for
"user can login". -/
def loginStore : Store :=
  addGeneratedStoryContext digestModel "2024-01-01T00:00:00" [] "user can login"
    [{ id := some "TC_001", title := "Valid login" }] none

/-- The story id handed back to the client for that record. -/
def loginStoryId : String := generateStoryId digestModel "user can login"

/-- C1 (the code evaluated at the failing input): a feedback event for the
existing record of `loginStore`, addressed by the record's own story id,
changes nothing — neither `_update_story_quality_score` alone nor the whole
`add_feedback` call updates the record, because the lookup filters on a
`story_id` metadata key that no insertion path ever writes. -/
theorem addFeedback_never_persists_quality_update :
    updateStoryQualityScore "2024-02-01T00:00:00" loginStore loginStoryId 5 = loginStore ∧
    (addFeedback false "2024-02-01T00:00:00" loginStore [] loginStoryId 5 "" [] [] []).1 =
      loginStore := by
  have hnone : ∀ r ∈ loginStore, r.metadata.story_id = none := by
    intro r hr
    unfold loginStore addGeneratedStoryContext collectionAdd at hr
    simp only [List.any_nil, Bool.false_eq_true, if_false, List.nil_append,
      List.mem_singleton] at hr
    rw [hr]
    rfl
  have h1 : updateStoryQualityScore "2024-02-01T00:00:00" loginStore loginStoryId 5 =
      loginStore := updateStoryQualityScore_noop "2024-02-01T00:00:00" loginStoryId 5 hnone
  refine ⟨h1, ?_⟩
  unfold addFeedback
  rw [if_neg (by simp)]
  simp only [h1]
  rw [if_neg (by simp)]

lemma ingestAux_hasId_mono {now x : String} :
    ∀ {ex : List (String × List TestCase)} {store : Store} {i : ℕ},
      hasId store x = true → hasId (ingestAux now store i ex) x = true := by
  intro ex
  induction ex with
  | nil => intro store i h; exact h
  | cons e rest ih =>
    intro store i h
    obtain ⟨story, tcs⟩ := e
    exact ih (hasId_collectionAdd h)

lemma ingestAux_present {now : String} :
    ∀ {ex : List (String × List TestCase)} {store : Store} {i j : ℕ}, j < ex.length →
      hasId (ingestAux now store i ex) ("sample_" ++ toString (i + j)) = true := by
  intro ex
  induction ex with
  | nil => intro store i j h; simp at h
  | cons e rest ih =>
    intro store i j h
    obtain ⟨story, tcs⟩ := e
    match j with
    | 0 =>
      simp only [Nat.add_zero, ingestAux]
      exact ingestAux_hasId_mono (hasId_collectionAdd_self _ _)
    | j' + 1 =>
      simp only [ingestAux]
      have : i + (j' + 1) = (i + 1) + j' := by omega
      rw [this]
      exact ih (by simpa using h)

lemma ingestAux_of_present {now : String} :
    ∀ {ex : List (String × List TestCase)} {store : Store} {i : ℕ},
      (∀ j < ex.length, hasId store ("sample_" ++ toString (i + j)) = true) →
      ingestAux now store i ex = store := by
  intro ex
  induction ex with
  | nil => intro store i _; rfl
  | cons e rest ih =>
    intro store i h
    obtain ⟨story, tcs⟩ := e
    simp only [ingestAux]
    have h0 : hasId store ("sample_" ++ toString i) = true := by
      have := h 0 (by simp)
      simpa using this
    rw [collectionAdd_of_hasId h0]
    exact ih (fun j hj => by
      have := h (j + 1) (by simpa using Nat.succ_lt_succ hj)
      rwa [show i + (j + 1) = (i + 1) + j by omega] at this)

/-- C9 (amended): re-running the sample ingestion on the same example list
never creates a duplicate (the positional ids `sample_{i}` already exist and
the store skips them); and contrary to the claim, a `generated` insertion of
already-inserted text also creates no new record, because the generated id is
a content hash of the text and collides with the existing record — repeated
generated insertions of the same text leave the store unchanged. -/
theorem ingest_idempotent_and_generated_dedups (md5hex8 : String → String)
    (now now2 : String) (store : Store) (examples : List (String × List TestCase))
    (story : String) (tcs tcs2 : List TestCase) (fs fs2 : Option ℚ) :
    ingestTestcasesFromJson now2 (ingestTestcasesFromJson now store examples) examples =
      ingestTestcasesFromJson now store examples ∧
    addGeneratedStoryContext md5hex8 now2
        (addGeneratedStoryContext md5hex8 now store story tcs fs) story tcs2 fs2 =
      addGeneratedStoryContext md5hex8 now store story tcs fs := by
  constructor
  · unfold ingestTestcasesFromJson
    exact ingestAux_of_present (fun j hj => ingestAux_present hj)
  · unfold addGeneratedStoryContext
    exact collectionAdd_of_hasId (hasId_collectionAdd_self _ _)

/-- C9 counterexample: inserting the same generated story text twice leaves a
single record in the store — the second `generated` insertion does not create
a new record. -/
theorem addGenerated_same_text_creates_no_record :
    (addGeneratedStoryContext digestModel "t2"
        (addGeneratedStoryContext digestModel "t1" [] "repeated story" [] none)
        "repeated story" [] none).length = 1 := by
  rfl

/-- C5 counterexample: `add_feedback` called with the out-of-range quality
score 7 and a story id that resolves to no record neither raises a
`ValidationError` nor a `NotFoundError` — it completes and stores the raw
feedback event; and when the feedback write itself fails, the call still
completes and the event is silently dropped. -/
theorem addFeedback_accepts_invalid_and_drops :
    ((addFeedback false "t" [] [] "unknown_id" 7 "" [] [] []).2).map
      (fun r => r.quality_score) = [7] ∧
    (addFeedback true "t" [] [] "unknown_id" 7 "" [] [] []).2 = [] := by
  constructor
  · rfl
  · rfl

/-- C5 (amended): the range check lives in the HTTP layer — `submit_feedback`
rejects a quality score outside [1,5] with a 400 response and touches neither
collection; `add_feedback` itself never raises: an unresolvable story id
silently skips the quality update, and an infrastructure failure during the
feedback write is caught and logged, so the event is dropped rather than
propagated (only the already-performed main-collection update survives). -/
theorem submitFeedback_validates_and_addFeedback_swallows (write_fails : Bool)
    (now : String) (store : Store) (fstore : List FeedbackRecord) (sid : String) (q : ℚ)
    (fb : String) (imp : List TestCase) (cats missing : List String) :
    (sid ≠ "" → ¬(1 ≤ q ∧ q ≤ 5) →
      submitFeedback write_fails now store fstore (some sid) (some q) fb imp cats missing =
        (.badRequest "Quality score must be between 1 and 5", store, fstore)) ∧
    addFeedback true now store fstore sid q fb imp cats missing =
      (updateStoryQualityScore now store sid q, fstore) := by
  constructor
  · intro hsid hq
    unfold submitFeedback
    dsimp only
    rw [if_neg hsid, if_pos hq]
  · rfl

/-- C5 witness: the amended theorem applied at a concrete out-of-range score. -/
theorem submitFeedback_validates_witness :
    submitFeedback false "t" [] [] (some "story_abc") (some 7) "" [] [] [] =
      (.badRequest "Quality score must be between 1 and 5", [], []) ∧
    addFeedback true "t" [] [] "story_abc" 7 "" [] [] [] =
      (updateStoryQualityScore "t" [] "story_abc" 7, []) :=
  ⟨(submitFeedback_validates_and_addFeedback_swallows false "t" [] [] "story_abc" 7
      "" [] [] []).1 (by decide) (by norm_num),
   (submitFeedback_validates_and_addFeedback_swallows true "t" [] [] "story_abc" 7
      "" [] [] []).2⟩

lemma roundHalfEven_ge_floor (q : ℚ) : ⌊q⌋ ≤ roundHalfEven q := by
  unfold roundHalfEven
  dsimp only
  split
  · exact le_refl _
  · split
    · omega
    · split <;> omega

lemma roundHalfEven_le_ceil (q : ℚ) : roundHalfEven q ≤ ⌈q⌉ := by
  unfold roundHalfEven
  have hfc : ⌊q⌋ ≤ ⌈q⌉ := Int.floor_le_ceil q
  have hup : q - (⌊q⌋ : ℚ) ≥ 1/2 → ⌊q⌋ + 1 ≤ ⌈q⌉ := by
    intro h
    have h1 : (⌊q⌋ : ℚ) < q := by linarith
    have h2 : (⌊q⌋ : ℚ) < (⌈q⌉ : ℚ) := lt_of_lt_of_le h1 (Int.le_ceil q)
    exact_mod_cast Int.add_one_le_iff.mpr (by exact_mod_cast h2)
  dsimp only
  split
  · exact hfc
  · split
    · exact hup (by linarith)
    · split
      · exact hfc
      · exact hup (by linarith)

lemma round2_mem_Icc {q : ℚ} (h1 : 1 ≤ q) (h5 : q ≤ 5) :
    1 ≤ round2 q ∧ round2 q ≤ 5 := by
  unfold round2
  have hl : (100 : ℤ) ≤ ⌊q * 100⌋ := Int.le_floor.mpr (by push_cast; linarith)
  have hu : ⌈q * 100⌉ ≤ (500 : ℤ) := Int.ceil_le.mpr (by push_cast; linarith)
  have h2 := roundHalfEven_ge_floor (q * 100)
  have h3 := roundHalfEven_le_ceil (q * 100)
  constructor
  · rw [le_div_iff (by norm_num : (0:ℚ) < 100)]
    have : (100 : ℤ) ≤ roundHalfEven (q * 100) := le_trans hl h2
    exact_mod_cast by push_cast; exact_mod_cast this
  · rw [div_le_iff (by norm_num : (0:ℚ) < 100)]
    have : roundHalfEven (q * 100) ≤ (500 : ℤ) := le_trans h3 hu
    exact_mod_cast by push_cast; exact_mod_cast this

/-- C8 (amended): a `StoryRecord` inserted through the generated path with no
explicit feedback score stores `feedback_score = 0.0` — not 3.0 — until its
first feedback (sample-path records store no score at all, and readers default
a missing score to 3.0); and the confidence-weighted update keeps the
persisted score within [1.0, 5.0] whenever the current score and the incoming
feedback score are within [1.0, 5.0]. -/
theorem generated_score_zero_and_update_bounded (md5hex8 : String → String)
    (now story : String) (tcs : List TestCase) :
    (generatedRecord md5hex8 now story tcs none).metadata.feedback_score = some 0 ∧
    (∀ (cur s : ℚ) (fc : ℕ), 1 ≤ cur → cur ≤ 5 → 1 ≤ s → s ≤ 5 →
      1 ≤ round2 ((cur * (fc : ℚ) + s * (12/10)) / ((fc : ℚ) + 12/10)) ∧
      round2 ((cur * (fc : ℚ) + s * (12/10)) / ((fc : ℚ) + 12/10)) ≤ 5) := by
  refine ⟨rfl, ?_⟩
  intro cur s fc hc1 hc5 hs1 hs5
  have hfc : (0 : ℚ) ≤ (fc : ℚ) := by positivity
  have hd : (0 : ℚ) < (fc : ℚ) + 12/10 := by linarith
  have h1 : 1 ≤ (cur * (fc : ℚ) + s * (12/10)) / ((fc : ℚ) + 12/10) := by
    rw [le_div_iff hd]
    nlinarith
  have h5 : (cur * (fc : ℚ) + s * (12/10)) / ((fc : ℚ) + 12/10) ≤ 5 := by
    rw [div_le_iff hd]
    nlinarith
  exact round2_mem_Icc h1 h5

/-- C8 witness: the generated record for a concrete story stores score 0.0,
and the first in-range update (3.0-record, count 0, feedback 5.0) stays in
[1,5]. -/
theorem generated_score_zero_and_update_bounded_witness :
    (generatedRecord digestModel "t" "some story" [] none).metadata.feedback_score = some 0 ∧
    (1 ≤ round2 ((3 * ((0 : ℕ) : ℚ) + 5 * (12/10)) / (((0 : ℕ) : ℚ) + 12/10)) ∧
      round2 ((3 * ((0 : ℕ) : ℚ) + 5 * (12/10)) / (((0 : ℕ) : ℚ) + 12/10)) ≤ 5) :=
  ⟨(generated_score_zero_and_update_bounded digestModel "t" "some story" []).1,
   (generated_score_zero_and_update_bounded digestModel "t" "some story" []).2 3 5 0
     (by norm_num) (by norm_num) (by norm_num) (by norm_num)⟩

/-- C8 counterexample: a generated record starts with stored quality score
0.0, which is neither the claimed default 3.0 nor inside [1.0, 5.0]. -/
theorem generatedRecord_initial_score_not_three :
    (generatedRecord digestModel "t" "some story" [] none).metadata.feedback_score ≠
        some 3 ∧
    ¬(1 ≤ ((generatedRecord digestModel "t" "some story" []
        none).metadata.feedback_score.getD 3) ∧
      ((generatedRecord digestModel "t" "some story" [] none).metadata.feedback_score.getD 3)
        ≤ 5) := by
  have h : (generatedRecord digestModel "t" "some story" [] none).metadata.feedback_score =
      some 0 := rfl
  rw [h]
  constructor
  · simp only [ne_eq, Option.some.injEq]
    norm_num
  · rw [Option.getD_some]
    norm_num
